import Mathlib

/-!
Shallow embedding of `crates/i18n/i18n.rs` (localization manager of the
repository): the `Language` enum, the `I18nManager` translation store, the
global access functions `init`, `set_language`, `get_language`, `t`,
`t_args`, and the static string cache (`init_static_translations`,
`t_static`, `clear_static_cache`).

Modelling conventions:
* Rust `HashMap<K, V>` is modelled as an association list `List (K × V)`
  with `List.lookup`; the maps in the source have pairwise distinct keys,
  so the first-match semantics of `List.lookup` coincides with the map.
* The JSON locale assets (`assets/locales/*.json`) are not part of the
  sources; the functions that read them (`load_translations`,
  `load_from_json_static`) are abstracted into a parameter
  `load : Language → Translations` that every definition threads through,
  exactly where the source calls `include_str!` + `serde_json`.
* The two process-wide `OnceCell` globals (`I18N_MANAGER`,
  `STATIC_TRANSLATIONS`) become the two fields of `GlobalState`; a cell
  that is not yet set is `none`.  Mutex/RwLock poisoning cannot occur in a
  sequential model, so the `lock().ok()` / `read()` fallbacks reduce to
  the success branch.
* A Rust panic (`unwrap` on `Err`) is modelled with `Except Unit`.
* Rust `str::replace` (replace every non-overlapping occurrence, left to
  right) is modelled by `replaceFuel` over `List Char`, with the fuel set
  to the length of the string, which the scan can never exhaust.
-/

namespace I18n

/-- The `Language` enum of the source: the closed set of supported
languages. -/
inductive Language where
  | English
  | SimplifiedChinese
  | TraditionalChinese
  | Japanese
  | Korean
deriving DecidableEq

/-- Source `Language::from_str`: parse a language tag, accepting the aliases the
source accepts, returning `none` on anything else. -/
def Language.from_str (s : String) : Option Language :=
  if s = "en" then some .English
  else if s = "zh-CN" ∨ s = "zh_cn" ∨ s = "zh" then some .SimplifiedChinese
  else if s = "zh-TW" ∨ s = "zh_tw" then some .TraditionalChinese
  else if s = "ja" then some .Japanese
  else if s = "ko" then some .Korean
  else none

/-- Source `Language::as_str`: the canonical wire tag of each language. -/
def Language.as_str : Language → String
  | .English => "en"
  | .SimplifiedChinese => "zh-CN"
  | .TraditionalChinese => "zh-TW"
  | .Japanese => "ja"
  | .Korean => "ko"

/-- Source `type Translations = HashMap<String, String>`, as an association
list. -/
abbrev Translations := List (String × String)

/-- The list of all languages, in the order the source iterates them in
`I18nManager::new` and `init_static_translations`. -/
def allLanguages : List Language :=
  [.English, .SimplifiedChinese, .TraditionalChinese, .Japanese, .Korean]

/-- The `I18nManager` struct: current language plus the per-language
translation tables. -/
structure I18nManager where
  current_language : Language
  translations : List (Language × Translations)
deriving DecidableEq

/-- Source `I18nManager::new`, with the asset loading abstracted into `load`:
inserts a table for every language and starts in Simplified Chinese. -/
def I18nManager.new (load : Language → Translations) : I18nManager :=
  { current_language := .SimplifiedChinese
    translations := allLanguages.map fun l => (l, load l) }

/-- Source `I18nManager::set_language`. -/
def I18nManager.set_language (m : I18nManager) (lang : Language) : I18nManager :=
  { m with current_language := lang }

/-- Source `I18nManager::get_language`. -/
def I18nManager.get_language (m : I18nManager) : Language :=
  m.current_language

/-- Source `I18nManager::translate`: look up the key in the active language's
table; on a miss (of the table or of the key) return the key itself. -/
def I18nManager.translate (m : I18nManager) (key : String) : String :=
  match (m.translations.lookup m.current_language).bind
      (fun trans => trans.lookup key) with
  | some v => v
  | none => key

/-- Does `pat` occur as a prefix of `s`?  (The match test of
`str::replace` at the current scan position.) -/
def hasPfxL : List Char → List Char → Bool
  | [], _ => true
  | _ :: _, [] => false
  | p :: ps, c :: cs => p = c && hasPfxL ps cs

/-- One left-to-right scan of `str::replace`: at each position, if the
(nonempty) pattern matches, emit the replacement and skip the matched
characters, otherwise keep the character.  The fuel is structural; it is
initialised to the string length, which the scan can never exhaust, since
every step consumes at least one character. -/
def replaceFuel (pat rep : List Char) : Nat → List Char → List Char
  | _, [] => []
  | 0, c :: cs => c :: cs
  | fuel + 1, c :: cs =>
    if hasPfxL pat (c :: cs) && !pat.isEmpty then
      rep ++ replaceFuel pat rep fuel ((c :: cs).drop pat.length)
    else
      c :: replaceFuel pat rep fuel cs

/-- Rust `str::replace s pat rep` (all non-overlapping occurrences, left
to right; the patterns used by the source are the nonempty strings
`"\x7bi\x7d"`). -/
def rustReplace (s pat rep : String) : String :=
  ⟨replaceFuel pat.data rep.data s.data.length s.data⟩

/-- The placeholder literal that `format!` builds in the source: an opening
brace, the decimal index, a closing brace. -/
def placeholder (i : Nat) : String :=
  "\x7b" ++ toString i ++ "\x7d"

/-- The loop body of `I18nManager::translate_with_args`: fold the
arguments over the result in index order, replacing `placeholder i` by
the i-th argument. -/
def substArgs : List String → Nat → String → String
  | [], _, result => result
  | a :: rest, i, result => substArgs rest (i + 1) (rustReplace result (placeholder i) a)

/-- Source `I18nManager::translate_with_args`: translate, then substitute the
positional placeholders one argument at a time. -/
def I18nManager.translate_with_args (m : I18nManager) (key : String)
    (args : List String) : String :=
  substArgs args 0 (m.translate key)

/-- The two process-wide `OnceCell` globals: `I18N_MANAGER` and
`STATIC_TRANSLATIONS`.  `none` is a cell that has not been set. -/
structure GlobalState where
  manager : Option I18nManager
  static_translations : Option (List (String × String))
deriving DecidableEq

/-- Source `init`: build the manager and `set` the `OnceCell`, whose `unwrap`
panics (modelled as `Except.error`) when the cell is already set. -/
def init (load : Language → Translations) (g : GlobalState) :
    Except Unit GlobalState :=
  match g.manager with
  | none => .ok { g with manager := some (I18nManager.new load) }
  | some _ => .error ()

/-- Source `clear_static_cache`: clear the static map when the cell is set; do
nothing when it is not. -/
def clear_static_cache (g : GlobalState) : GlobalState :=
  match g.static_translations with
  | some _ => { g with static_translations := some [] }
  | none => g

/-- Global `set_language`: update the manager's language when the manager
exists, then unconditionally clear the static cache. -/
def set_language (lang : Language) (g : GlobalState) : GlobalState :=
  clear_static_cache
    (match g.manager with
     | some m => { g with manager := some (m.set_language lang) }
     | none => g)

/-- Global `get_language`: the manager's language, or `English` when the
store is uninitialised. -/
def get_language (g : GlobalState) : Language :=
  match g.manager with
  | some m => m.get_language
  | none => .English

/-- Global `t`: translate through the manager, or fall back to the key
when the store is uninitialised. -/
def t (g : GlobalState) (key : String) : String :=
  match g.manager with
  | some m => m.translate key
  | none => key

/-- Global `t_args`: translate with arguments through the manager, or
fall back to the key when the store is uninitialised. -/
def t_args (g : GlobalState) (key : String) (args : List String) : String :=
  match g.manager with
  | some m => m.translate_with_args key args
  | none => key

/-- The entries `"tag:key" ↦ value` that `init_static_translations`
inserts for one language's table. -/
def prefixedEntries (lang : Language) (tbl : Translations) :
    List (String × String) :=
  tbl.map fun kv => (lang.as_str ++ ":" ++ kv.1, kv.2)

/-- The full static cache `init_static_translations` builds: every
language's table under composite keys, in the source's insertion order. -/
def staticCacheContents (load : Language → Translations) :
    List (String × String) :=
  (allLanguages.map fun l => prefixedEntries l (load l)).flatten

/-- Source `init_static_translations`: build the cache from all locale assets
and `set` the cell; `set(..).ok()` discards the build when the cell is
already set. -/
def init_static_translations (load : Language → Translations)
    (g : GlobalState) : GlobalState :=
  match g.static_translations with
  | some _ => g
  | none => { g with static_translations := some (staticCacheContents load) }

/-- Source `t_static`: initialise the static cache when the cell is unset, then
look up `"activeTag:key"`, falling back first to the raw key and then to
the key itself.  Returns the string and the (possibly initialised)
state. -/
def t_static (load : Language → Translations) (g : GlobalState)
    (key : String) : String × GlobalState :=
  let g' := if g.static_translations.isNone
    then init_static_translations load g else g
  let cache := g'.static_translations.getD []
  let lang_key := (get_language g').as_str ++ ":" ++ key
  match cache.lookup lang_key with
  | some v => (v, g')
  | none =>
    match cache.lookup key with
    | some v => (v, g')
    | none => (key, g')

/-- The active language's table of a manager (the empty table when the
language has no entry in the outer map). -/
def activeTable (m : I18nManager) : Translations :=
  (m.translations.lookup m.current_language).getD []

/-- Number of entries currently held by the static string cache (zero when
the cell has never been set). -/
def staticEntryCount (g : GlobalState) : Nat :=
  (g.static_translations.getD []).length

/-- Every string `Language::from_str` recognises. -/
def aliasStrings : List String :=
  ["en", "zh-CN", "zh_cn", "zh", "zh-TW", "zh_tw", "ja", "ko"]

/-- The canonical wire tags `Language::as_str` can produce. -/
def canonicalTags : List String :=
  ["en", "zh-CN", "zh-TW", "ja", "ko"]

/-- Does `pat` occur anywhere in `s`?  (Used to state that `str::replace`
is the identity when the pattern is absent.) -/
def containsL (pat : List Char) : List Char → Bool
  | [] => hasPfxL pat []
  | c :: cs => hasPfxL pat (c :: cs) || containsL pat cs

/-- A concrete load: Simplified Chinese translates `"k"`, English
translates `"k"` differently, the other tables are empty. -/
def loadKV : Language → Translations
  | .SimplifiedChinese => [("k", "nihao")]
  | .English => [("k", "hello")]
  | _ => []

/-- The global state right after a successful `init` with `loadKV`. -/
def gInitKV : GlobalState :=
  { manager := some (I18nManager.new loadKV), static_translations := none }

/-- A reachable global state whose static cache has been cleared: the
manager is initialised with `loadKV` and the static cell holds the empty
map. -/
def gCleared : GlobalState :=
  { manager := some (I18nManager.new loadKV), static_translations := some [] }

/-- A manager whose English table holds the two-placeholder greeting
template of the specification's substitution example. -/
def mgrGreeting : I18nManager :=
  { current_language := .English
    translations :=
      [(.English, [("greeting", "Hello \x7b0\x7d, you have \x7b1\x7d items")])] }

/-- A manager for the fallback example: the active English table lacks
`"k"`, while the Simplified Chinese table contains it. -/
def mgrOther : I18nManager :=
  { current_language := .English
    translations :=
      [(.English, [("other", "x")]), (.SimplifiedChinese, [("k", "nihao")])] }

/-- A manager for the sequential-substitution examples: one template that
is a bare first placeholder, one that repeats it. -/
def mgrChain : I18nManager :=
  { current_language := .English
    translations :=
      [(.English, [("chain", "\x7b0\x7d"), ("dup", "\x7b0\x7d and \x7b0\x7d")])] }

/-- When the pattern occurs nowhere in the string, the replace scan keeps
every character, for any amount of fuel. -/
lemma replaceFuel_of_not_contains (pat rep : List Char) (fuel : Nat) :
    ∀ s : List Char, containsL pat s = false → replaceFuel pat rep fuel s = s := by
  induction fuel with
  | zero =>
    intro s _
    cases s <;> rfl
  | succ n ih =>
    intro s h
    cases s with
    | nil => rfl
    | cons c cs =>
      simp only [containsL, Bool.or_eq_false_iff] at h
      simp [replaceFuel, h.1, ih cs h.2]

/-- When the pattern occurs nowhere in the string, `str::replace` returns
the string unchanged. -/
lemma rustReplace_of_not_contains (s pat rep : String)
    (h : containsL pat.data s.data = false) : rustReplace s pat rep = s := by
  unfold rustReplace
  rw [replaceFuel_of_not_contains pat.data rep.data s.data.length s.data h]

/-- When none of the placeholders the loop would substitute occurs in the
string, the whole substitution loop is the identity. -/
lemma substArgs_of_no_placeholders (args : List String) :
    ∀ (i : Nat) (s : String),
      (∀ j ∈ List.range args.length,
        containsL (placeholder (i + j)).data s.data = false) →
      substArgs args i s = s := by
  induction args with
  | nil => intro i s _; rfl
  | cons a rest ih =>
    intro i s h
    have h0 : containsL (placeholder i).data s.data = false := by
      have := h 0 (by simp)
      simpa using this
    have hrep : rustReplace s (placeholder i) a = s :=
      rustReplace_of_not_contains s (placeholder i) a h0
    show substArgs rest (i + 1) (rustReplace s (placeholder i) a) = s
    rw [hrep]
    apply ih (i + 1) s
    intro j hj
    have hj' : j + 1 ∈ List.range (rest.length + 1) := by
      simp only [List.mem_range] at hj ⊢
      omega
    have := h (j + 1) (by simpa using hj')
    have harith : i + (j + 1) = i + 1 + j := by omega
    rwa [harith] at this

/-- C1.  The claim fails on the code: starting from a freshly initialised
store (`loadKV`, default language Simplified Chinese = A), `t_static "k"`
yields `v_A = "nihao"`; after `set_language English` (= B) the second
`t_static "k"` returns the raw key `"k"`, while `translate`/`t` under B
returns `"hello"`.  The static cache was cleared by the switch but is
never rebuilt, because the `OnceCell` remains set, so the second result
disagrees with the store's lookup under B. -/
theorem C1_stale_after_switch :
    init loadKV { manager := none, static_translations := none } = .ok gInitKV ∧
    (t_static loadKV gInitKV "k").1 = "nihao" ∧
    (t_static loadKV (set_language .English (t_static loadKV gInitKV "k").2) "k").1 = "k" ∧
    t (set_language .English (t_static loadKV gInitKV "k").2) "k" = "hello" ∧
    (t_static loadKV (set_language .English (t_static loadKV gInitKV "k").2) "k").1 ≠
      t (set_language .English (t_static loadKV gInitKV "k").2) "k" :=
  ⟨rfl, by decide, by decide, by decide, by decide⟩

/-- C3.  After any global `set_language` call — whatever the previous
state, and also when the requested language is already active — the
static string cache holds zero entries: the clear is whole-cache,
synchronous and unconditional. -/
theorem C3_invalidation_complete (g : GlobalState) (lang : Language) :
    staticEntryCount (set_language lang g) = 0 := by
  cases hm : g.manager <;> cases hs : g.static_translations <;>
    simp [set_language, clear_static_cache, staticEntryCount, hm, hs,
      I18nManager.set_language]

/-- C4.  Alias normalisation: every recognised alias parses to its
language, round-tripping `as_str` through `from_str` is the identity,
`as_str` only ever outputs a canonical tag (never an alias), and every
string outside the alias set fails to parse. -/
theorem C4_alias_normalization :
    (Language.from_str "zh" = some .SimplifiedChinese ∧
     Language.from_str "zh_cn" = some .SimplifiedChinese ∧
     Language.from_str "zh-CN" = some .SimplifiedChinese ∧
     Language.from_str "zh_tw" = some .TraditionalChinese ∧
     Language.from_str "zh-TW" = some .TraditionalChinese ∧
     Language.from_str "en" = some .English ∧
     Language.from_str "ja" = some .Japanese ∧
     Language.from_str "ko" = some .Korean) ∧
    (∀ l : Language, Language.from_str l.as_str = some l) ∧
    (∀ l : Language, l.as_str ∈ canonicalTags) ∧
    (∀ s : String, s ∉ aliasStrings → Language.from_str s = none) := by
  refine ⟨by decide, ?_, ?_, ?_⟩
  · intro l; cases l <;> decide
  · intro l; cases l <;> decide
  · intro s hs
    simp only [aliasStrings, List.mem_cons, List.not_mem_nil, or_false,
      not_or] at hs
    obtain ⟨h1, h2, h3, h4, h5, h6, h7, h8⟩ := hs
    simp [Language.from_str, h1, h2, h3, h4, h5, h6, h7, h8]

/-- Witness for C4: the unrecognised string `"xx"` is outside the alias
set and fails to parse. -/
theorem C4_alias_normalization_witness :
    "xx" ∉ aliasStrings ∧ Language.from_str "xx" = none :=
  ⟨by decide, C4_alias_normalization.2.2.2 "xx" (by decide)⟩

/-- Closed form of one `t_static` step: the manager is preserved, the
cache ends up set (to its previous contents, or to the bulk-built one
when it was unset), and the returned string is the composite-key entry,
else the raw-key entry, else the key. -/
lemma t_static_eq (load : Language → Translations) (mgr : Option I18nManager)
    (st : Option (List (String × String))) (key : String) :
    t_static load ⟨mgr, st⟩ key =
      ((((st.getD (staticCacheContents load)).lookup
          ((get_language ⟨mgr, st⟩).as_str ++ ":" ++ key)).orElse
         (fun _ => (st.getD (staticCacheContents load)).lookup key)).getD key,
       ⟨mgr, some (st.getD (staticCacheContents load))⟩) := by
  cases st with
  | none =>
    simp only [t_static, init_static_translations, Option.isNone_none,
      if_true, Option.getD, get_language]
    cases h1 : (staticCacheContents load).lookup
        ((match mgr with
          | some m => m.get_language
          | none => Language.English).as_str ++ ":" ++ key) <;>
      cases h2 : (staticCacheContents load).lookup key <;>
        simp [h1, h2, Option.orElse]
  | some c =>
    simp only [t_static, init_static_translations, Option.isNone_some,
      if_false, Option.getD, get_language]
    cases h1 : c.lookup
        ((match mgr with
          | some m => m.get_language
          | none => Language.English).as_str ++ ":" ++ key) <;>
      cases h2 : c.lookup key <;>
        simp [h1, h2, Option.orElse]

/-- One global `set_language` step maps a set static cache to the empty
one and leaves an unset cell unset. -/
lemma set_language_static (lang : Language) (mgr : Option I18nManager)
    (st : Option (List (String × String))) :
    (set_language lang ⟨mgr, st⟩).static_translations =
      st.map (fun _ => ([] : List (String × String))) := by
  cases mgr <;> cases st <;> rfl

/-- Counterexample to C2.  `gCleared` is reachable (it is exactly the
state after a first `t_static` followed by a `set_language` to the
already-active language); its static cache does not contain the composite
key `"zh-CN:k"`.  On this miss `t_static` returns the raw key `"k"`, not
the store lookup `"nihao"`, and stores nothing: the cache afterwards
still has no entry under the composite key. -/
theorem C2_counterexample :
    set_language .SimplifiedChinese (t_static loadKV gInitKV "k").2 = gCleared ∧
    ((gCleared.static_translations.getD []).lookup "zh-CN:k" = none) ∧
    (t_static loadKV gCleared "k").1 = "k" ∧
    t gCleared "k" = "nihao" ∧
    (t_static loadKV gCleared "k").1 ≠ t gCleared "k" ∧
    (((t_static loadKV gCleared "k").2.static_translations.getD []).lookup
      "zh-CN:k" = none) := by
  refine ⟨by decide, by decide, by decide, by decide, by decide, by decide⟩

/-- C2 as amended.  The static cache has exactly two kinds of transition,
neither of which is a per-key miss-insert: a `t_static` call leaves the
manager untouched and either bulk-populates an unset cache with every
language's table under composite keys (first call) or leaves the cache
exactly as it was — in particular a miss inserts nothing; its return
value is the composite-key entry, else the raw-key entry, else the key
itself; and a global `set_language` maps a set cache to the empty one. -/
theorem C2_static_cache_transitions (load : Language → Translations)
    (g : GlobalState) (key : String) (lang : Language) :
    (t_static load g key).2.manager = g.manager ∧
    (t_static load g key).2.static_translations =
      some (g.static_translations.getD (staticCacheContents load)) ∧
    (t_static load g key).1 =
      (let cache := g.static_translations.getD (staticCacheContents load)
       ((cache.lookup ((get_language g).as_str ++ ":" ++ key)).orElse
         (fun _ => cache.lookup key)).getD key) ∧
    (set_language lang g).static_translations =
      g.static_translations.map (fun _ => ([] : List (String × String))) := by
  obtain ⟨mgr, st⟩ := g
  refine ⟨?_, ?_, ?_, ?_⟩
  · rw [t_static_eq]
  · rw [t_static_eq]
  · rw [t_static_eq]
  · exact set_language_static lang mgr st

/-- C5.  Positional parameter substitution: the spec's greeting template
with both arguments, with only the first argument (the trailing
placeholder is left untouched), and with extra arguments (which change
nothing); and, in general, a substitution pass over a string containing
none of the placeholders it would substitute is the identity, so
arguments beyond the placeholder count are ignored. -/
theorem C5_parameter_substitution :
    mgrGreeting.translate_with_args "greeting" ["Ann", "3"] =
      "Hello Ann, you have 3 items" ∧
    mgrGreeting.translate_with_args "greeting" ["Ann"] =
      "Hello Ann, you have \x7b1\x7d items" ∧
    mgrGreeting.translate_with_args "greeting" ["Ann", "3", "X", "Y"] =
      "Hello Ann, you have 3 items" ∧
    (∀ (args : List String) (i : Nat) (s : String),
      (∀ j ∈ List.range args.length,
        containsL (placeholder (i + j)).data s.data = false) →
      substArgs args i s = s) :=
  ⟨by decide, by decide, by decide, fun args i s h =>
    substArgs_of_no_placeholders args i s h⟩

/-- Witness for C5: the placeholder-free string `"Hello"` is unchanged by
substituting two arguments. -/
theorem C5_parameter_substitution_witness :
    (∀ j ∈ List.range (["a", "b"] : List String).length,
      containsL (placeholder (0 + j)).data ("Hello" : String).data = false) ∧
    substArgs ["a", "b"] 0 "Hello" = "Hello" :=
  ⟨by decide, C5_parameter_substitution.2.2.2 ["a", "b"] 0 "Hello" (by decide)⟩

/-- C6.  No cross-language fallback: whenever the key is absent from the
active language's table, `translate` returns the key itself — whatever
the other languages' tables contain. -/
theorem C6_no_cross_language_fallback (m : I18nManager) (key : String)
    (h : (activeTable m).lookup key = none) : m.translate key = key := by
  unfold I18nManager.translate
  unfold activeTable at h
  cases hm : m.translations.lookup m.current_language with
  | none => simp
  | some tbl =>
    rw [hm] at h
    simp only [Option.getD] at h
    simp [h]

/-- Witness for C6: `mgrOther`'s active English table lacks `"k"` while
its Simplified Chinese table contains it, and `translate` still returns
the raw key. -/
theorem C6_no_cross_language_fallback_witness :
    (activeTable mgrOther).lookup "k" = none ∧
    (mgrOther.translations.lookup .SimplifiedChinese =
      some [("k", "nihao")]) ∧
    mgrOther.translate "k" = "k" :=
  ⟨by decide, by decide, C6_no_cross_language_fallback mgrOther "k" (by decide)⟩

/-- C7.  Querying the global store before `init` fails safe: with the
manager cell unset, `t` and `t_args` return the raw key (and, being total
functions of the modelled state, cannot panic). -/
theorem C7_uninitialized_fail_safe
    (st : Option (List (String × String))) (key : String)
    (args : List String) :
    t { manager := none, static_translations := st } key = key ∧
    t_args { manager := none, static_translations := st } key args = key :=
  ⟨rfl, rfl⟩

/-- C8.  The first `init` on an untouched process succeeds and leaves the
store in Simplified Chinese; running `init` again on the resulting state
is the modelled panic (`Except.error`). -/
theorem C8_double_init_fatal (load : Language → Translations) :
    (init load { manager := none, static_translations := none }).map
      get_language = .ok .SimplifiedChinese ∧
    ((init load { manager := none, static_translations := none }).bind
      fun g => init load g) = .error () :=
  ⟨rfl, rfl⟩

/-- C9.  Before `init`, the global `get_language` reports English, while
`init` establishes Simplified Chinese — two different languages, so the
language reported before initialisation differs from the one lookups use
right after it. -/
theorem C9_uninitialized_language_mismatch (load : Language → Translations)
    (st : Option (List (String × String))) :
    get_language { manager := none, static_translations := st } = .English ∧
    (init load { manager := none, static_translations := st }).map
      get_language = .ok .SimplifiedChinese ∧
    Language.English ≠ Language.SimplifiedChinese :=
  ⟨rfl, rfl, by decide⟩

/-- C10.  Substitution is sequential, not simultaneous: when argument 0
is itself the literal second placeholder, the second argument replaces it
(the simultaneous reading would leave it in place); and a repeated
placeholder is replaced at every occurrence, not just the first. -/
theorem C10_sequential_substitution :
    mgrChain.translate_with_args "chain" ["\x7b1\x7d", "X"] = "X" ∧
    mgrChain.translate_with_args "chain" ["\x7b1\x7d", "X"] ≠ "\x7b1\x7d" ∧
    mgrChain.translate_with_args "dup" ["A"] = "A and A" :=
  ⟨by decide, by decide, by decide⟩

end I18n
